import Mathlib

/-!
Shallow embedding of the tool-calling agent core of the gpt-computer-agent
repository, covering:

* the activity classifier and aggregator
  (src/aideck/services/activity_tracker.py,
   src/aideck/services/improved_activity_tracker.py,
   src/aideck/services/activity_tools.py),
* the tool descriptor builder and tool registry
  (src/aideck/core/tools.py),
* the single-turn agent loop (src/gpt_computer_agent/core/agent.py).

Modelling conventions: Python ints are Nat, Python floats are ℚ with exact
arithmetic (float truncation `int(x)` of a nonnegative value is modelled as
the exact rational floor; all concrete inputs used in theorems are small
enough that IEEE doubles compute the exact value there), Python strings are
Lean String, Python dicts are insertion-ordered association lists, raising
an exception is modelled with Option / Except / an explicit error flag.
-/

namespace GCA

/-- Generic model of a Python dict assignment `d[k] = v` on an
insertion-ordered association list: update in place if the key exists,
otherwise append at the end. -/
def assocSet (l : List (String × α)) (k : String) (v : α) : List (String × α) :=
  match l with
  | [] => [(k, v)]
  | (x, w) :: t => if x = k then (k, v) :: t else (x, w) :: assocSet t k v

/-- Generic model of Python `d.get(k)` on an association list. -/
def assocGet (l : List (String × α)) (k : String) : Option α :=
  match l with
  | [] => none
  | (x, v) :: t => if x = k then some v else assocGet t k

/-! ## Activity data model (activity_tracker.py, class ActivityCategory / ActivityEntry) -/

/-- The four activity categories of `ActivityCategory` in activity_tracker.py. -/
inductive ActivityCategory where
  | work
  | communication
  | breaks
  | uncategorized
deriving DecidableEq, BEq, Repr

/-- The `.value` of each enum member. -/
def ActivityCategory.value : ActivityCategory → String
  | .work => "work"
  | .communication => "communication"
  | .breaks => "breaks"
  | .uncategorized => "uncategorized"

/-- The enum constructor `ActivityCategory(s)`: returns the member whose value
is `s`, or `none` where Python raises `ValueError`. -/
def ActivityCategory.ofValue (s : String) : Option ActivityCategory :=
  if s = "work" then some .work
  else if s = "communication" then some .communication
  else if s = "breaks" then some .breaks
  else if s = "uncategorized" then some .uncategorized
  else none

/-- One activity snapshot (`ActivityEntry` dataclass).  The `datetime`
timestamp is modelled as a Nat instant. -/
structure ActivityEntry where
  timestamp : Nat
  app_name : String
  window_title : String
  content_summary : String
  user_activity : String
  category : ActivityCategory
  confidence : ℚ
deriving DecidableEq, Repr

/-- Python `s.lower()`: lowercase every character (all source keywords and
inputs of interest are ASCII, where this agrees with Python semantics). -/
def pyLower (s : String) : String := ⟨s.data.map Char.toLower⟩

/-! ## Substring test: the Python operator `kw in text` -/

/-- True when the first argument occurs at the head of the second. -/
def matchesAt : List Char → List Char → Bool
  | [], _ => true
  | _ :: _, [] => false
  | c :: cs, d :: ds => c == d && matchesAt cs ds

/-- True when the first list occurs contiguously somewhere in the second. -/
def charsContain (needle : List Char) : List Char → Bool
  | [] => needle.isEmpty
  | d :: ds => matchesAt needle (d :: ds) || charsContain needle ds

/-- Python `kw in text` on strings (exact substring containment). -/
def strContains (text kw : String) : Bool :=
  charsContain kw.data text.data

/-! ## Keyword lists

`WORK_KEYWORDS` / `COMMUNICATION_KEYWORDS` / `BREAKS_KEYWORDS` from
improved_activity_tracker.py.  The inline lists in
`ActivityTracker.__init__` (activity_tracker.py lines 44-63) are textually
identical; both copies are embedded below. -/

def WORK_KEYWORDS : List String :=
  ["coding", "programming", "development", "writing", "editing",
   "designing", "analyzing", "researching", "planning", "documenting",
   "debugging", "testing", "reviewing", "spreadsheet", "excel",
   "word", "document", "report", "presentation", "slide", "data",
   "analysis", "calculation", "modeling", "database", "sql"]

def COMMUNICATION_KEYWORDS : List String :=
  ["meeting", "call", "video", "conference", "chat", "message",
   "email", "outlook", "teams", "slack", "discord", "zoom",
   "skype", "webex", "discussion", "collaboration", "review",
   "feedback", "planning", "standup", "sync", "1:1"]

def BREAKS_KEYWORDS : List String :=
  ["break", "lunch", "coffee", "rest", "relax", "music", "video",
   "youtube", "netflix", "game", "social media", "facebook",
   "twitter", "instagram", "tiktok", "reddit", "news", "entertainment"]

/-- The `self.category_keywords` dict of `ActivityTracker.__init__`: from the
three scored categories to their keyword lists (the literals in the source
are byte-identical to the module constants above). -/
def categoryKeywords : List (ActivityCategory × List String) :=
  [(.work,
    ["coding", "programming", "development", "writing", "editing",
     "designing", "analyzing", "researching", "planning", "documenting",
     "debugging", "testing", "reviewing", "spreadsheet", "excel",
     "word", "document", "report", "presentation", "slide", "data",
     "analysis", "calculation", "modeling", "database", "sql"]),
   (.communication,
    ["meeting", "call", "video", "conference", "chat", "message",
     "email", "outlook", "teams", "slack", "discord", "zoom",
     "skype", "webex", "discussion", "collaboration", "review",
     "feedback", "planning", "standup", "sync", "1:1"]),
   (.breaks,
    ["break", "lunch", "coffee", "rest", "relax", "music", "video",
     "youtube", "netflix", "game", "social media", "facebook",
     "twitter", "instagram", "tiktok", "reddit", "news", "entertainment"])]

/-! ## The classifier -/

/-- Python `max(iterable, key=snd)` starting from a first element: scan the
rest, replacing the current best only on a strictly greater key. -/
def maxLoop (b : α × Nat) (l : List (α × Nat)) : α × Nat :=
  l.foldl (fun b y => if b.2 < y.2 then y else b) b

/-- Dict indexing `d[k]` on a category-keyed association list. -/
def catDictGet (l : List (ActivityCategory × α)) (k : ActivityCategory) : Option α :=
  match l with
  | [] => none
  | (x, v) :: t => if x = k then some v else catDictGet t k

/-- Model of `ActivityTracker._categorize_activity` (activity_tracker.py lines 95-130):
concatenate the three text fields, lowercase, count keyword hits per
category, pick the first category with the highest score, divide by the
size of the winning list, and force `uncategorized` below the 0.3
threshold while reporting the confidence unmodified. -/
def trackerCategorize (entry : ActivityEntry) : ActivityCategory × ℚ :=
  let text :=
    pyLower (entry.user_activity ++ " " ++ entry.content_summary ++ " " ++ entry.window_title)
  let scores : List (ActivityCategory × Nat) :=
    categoryKeywords.map (fun p => (p.1, p.2.countP (fun kw => strContains text kw)))
  match scores with
  | [] => (.uncategorized, 0)
  | s :: rest =>
    let best := maxLoop s rest
    let maxPossible := ((catDictGet categoryKeywords best.1).getD []).length
    let confidence : ℚ :=
      if 0 < maxPossible then (best.2 : ℚ) / (maxPossible : ℚ) else 0
    if confidence < 3/10 then (.uncategorized, confidence)
    else (best.1, confidence)

/-- Model of `eval(f"{best_category.upper()}_KEYWORDS")` in
improved_activity_tracker.py line 58: map a category name to the module
keyword list of that name. -/
def keywordListOf (n : String) : List String :=
  if n = "work" then WORK_KEYWORDS
  else if n = "communication" then COMMUNICATION_KEYWORDS
  else if n = "breaks" then BREAKS_KEYWORDS
  else []

/-- The standalone classifier `categorize_activity`
(improved_activity_tracker.py lines 30-65).  Identical scoring; the only
structural differences from the tracker method are the early all-zero
return and the string-valued category. -/
def categorize_activity (user_activity content_summary window_title : String) :
    String × ℚ :=
  let text := pyLower (user_activity ++ " " ++ content_summary ++ " " ++ window_title)
  let w := WORK_KEYWORDS.countP (fun kw => strContains text kw)
  let c := COMMUNICATION_KEYWORDS.countP (fun kw => strContains text kw)
  let b := BREAKS_KEYWORDS.countP (fun kw => strContains text kw)
  if w = 0 ∧ c = 0 ∧ b = 0 then ("uncategorized", 0)
  else
    let best := maxLoop ("work", w) [("communication", c), ("breaks", b)]
    let maxPossible := (keywordListOf best.1).length
    let confidence : ℚ :=
      if 0 < maxPossible then (best.2 : ℚ) / (maxPossible : ℚ) else 0
    if confidence < 3/10 then ("uncategorized", confidence)
    else (best.1, confidence)

/-! ## The aggregator (activity_tracker.py, get_summary and helpers) -/

/-- The constant `SNAPSHOT_INTERVAL = 10  # seconds`, the fixed slice duration. -/
def SNAPSHOT_INTERVAL : Nat := 10

/-- Model of `ActivityTracker._calculate_total_minutes` (lines 180-189):
`int(len(activities) * (SNAPSHOT_INTERVAL / 60))`, the float truncation
modelled as exact floor division. -/
def calculateTotalMinutes (activities : List ActivityEntry) : Nat :=
  if activities.isEmpty then 0
  else activities.length * SNAPSHOT_INTERVAL / 60

/-- Seconds attributed to one category: `SNAPSHOT_INTERVAL` per entry of
that category (the accumulation loop of `_calculate_time_distribution`). -/
def categorySeconds (activities : List ActivityEntry) (c : ActivityCategory) : Nat :=
  SNAPSHOT_INTERVAL * activities.countP (fun e => decide (e.category = c))

/-- One row of `ActivityTracker._calculate_time_distribution`
(lines 204-223): `(minutes, percentage)` for a category, where
`minutes = seconds // 60` and
`percentage = int((seconds / (total_minutes * 60)) * 100)` when
`total_minutes > 0`, else `0` (exact-arithmetic model of the float
truncation). -/
def timeDistribution (activities : List ActivityEntry) (total_minutes : Nat)
    (c : ActivityCategory) : Nat × Nat :=
  let seconds := categorySeconds activities c
  (seconds / 60,
   if 0 < total_minutes then seconds * 100 / (total_minutes * 60) else 0)

/-- Model of `ActivityTracker._calculate_apps_used` (lines 191-202): accumulate
`SNAPSHOT_INTERVAL` seconds per entry into a dict keyed by app name, then
emit `(app, seconds // 60)` in dict insertion order. -/
def calculateAppsUsed (activities : List ActivityEntry) : List (String × Nat) :=
  let appTimes := activities.foldl
    (fun d e => assocSet d e.app_name ((assocGet d e.app_name).getD 0 + SNAPSHOT_INTERVAL)) []
  appTimes.map (fun p => (p.1, p.2 / 60))

/-- The `ActivitySummary` dataclass (the `date` string comes from the clock,
passed in explicitly here; `categorized_activities` is the
`_group_by_category` result viewed as a function). -/
structure ActivitySummary where
  date : String
  total_tracked_minutes : Nat
  apps_used : List (String × Nat)
  time_distribution : ActivityCategory → Nat × Nat
  categorized_activities : ActivityCategory → List ActivityEntry
  total_activities : Nat

/-- The summary `get_summary` builds from a non-empty filtered slice
(activity_tracker.py lines 152-165). -/
def mkSummary (today : String) (activities : List ActivityEntry) : ActivitySummary :=
  let total_minutes := calculateTotalMinutes activities
  { date := today
    total_tracked_minutes := total_minutes
    apps_used := calculateAppsUsed activities
    time_distribution := fun c => timeDistribution activities total_minutes c
    categorized_activities := fun c => activities.filter (fun e => decide (e.category = c))
    total_activities := activities.length }

/-- Model of `ActivityTracker._create_empty_summary` (lines 234-244). -/
def emptySummary (today : String) : ActivitySummary :=
  { date := today
    total_tracked_minutes := 0
    apps_used := []
    time_distribution := fun _ => (0, 0)
    categorized_activities := fun _ => []
    total_activities := 0 }

/-- Model of `ActivityTracker.get_summary` (lines 132-165) with
`_filter_activities_by_time` (lines 167-178): default the bounds to the
first and last log timestamps, keep entries with timestamp in the closed
interval, and produce the all-zero summary for an empty log or an empty
filtered slice. -/
def getSummary (today : String) (log : List ActivityEntry)
    (startTime endTime : Option Nat) : ActivitySummary :=
  match log with
  | [] => emptySummary today
  | e0 :: _ =>
    let s := startTime.getD e0.timestamp
    let t := endTime.getD (log.getLastD e0).timestamp
    let filtered := log.filter (fun e => decide (s ≤ e.timestamp ∧ e.timestamp ≤ t))
    if filtered.isEmpty then emptySummary today
    else mkSummary today filtered

/-- Model of `get_productivity_insights` (activity_tools.py lines 156-214), restricted
to its numeric observable: `none` models the early
`{"message": "No activity data available for insights"}` return with no
score; otherwise the returned `productivity_score`, which is
`int((work_minutes + communication_minutes) / total_tracked_minutes * 100)`
using the minutes of the summary's time distribution. -/
def getProductivityInsights (summary : ActivitySummary) : Option Nat :=
  if summary.total_tracked_minutes = 0 then none
  else
    let work_time := (summary.time_distribution .work).1
    let communication_time := (summary.time_distribution .communication).1
    let productive_time := work_time + communication_time
    some (if 0 < summary.total_tracked_minutes then
            productive_time * 100 / summary.total_tracked_minutes
          else 0)

/-! ## Persistence (activity_tracker.py, save_to_file / load_from_file) -/

/-- One record of the persisted JSON list under the `"activities"` key, as
seen by `load_from_file`.  A `none` field models a missing key or, for
`timestamp`, an unparseable ISO-8601 string (both make the Python loop
raise); `category` holds the raw string still to be checked against the
enum.  Timestamps are modelled by the instant they denote, with
`datetime.isoformat`/`fromisoformat` as the identity on it. -/
structure RawEntry where
  timestamp : Option Nat
  app_name : Option String
  window_title : Option String
  content_summary : Option String
  user_activity : Option String
  category : Option String
  confidence : Option ℚ
deriving DecidableEq, Repr

/-- The record `save_to_file` (lines 246-264) writes for one entry: every
field present, the category serialized through `.value`. -/
def saveEntry (e : ActivityEntry) : RawEntry :=
  { timestamp := some e.timestamp
    app_name := some e.app_name
    window_title := some e.window_title
    content_summary := some e.content_summary
    user_activity := some e.user_activity
    category := some e.category.value
    confidence := some e.confidence }

/-- Model of `save_to_file`: the persisted `"activities"` list for a log. -/
def save_to_file (log : List ActivityEntry) : List RawEntry :=
  log.map saveEntry

/-- The body of the `load_from_file` loop (lines 272-282) for one record:
`none` where the Python code raises (missing required field, invalid
timestamp, category string not an enum value); the `confidence` field uses
`entry_data.get("confidence", 0.0)`. -/
def parseEntry (r : RawEntry) : Option ActivityEntry :=
  match r.timestamp, r.app_name, r.window_title, r.content_summary, r.user_activity, r.category with
  | some ts, some an, some wt, some cs, some ua, some cat =>
    (ActivityCategory.ofValue cat).map (fun c =>
      { timestamp := ts
        app_name := an
        window_title := wt
        content_summary := cs
        user_activity := ua
        category := c
        confidence := r.confidence.getD 0 })
  | _, _, _, _, _, _ => none

/-- The `load_from_file` append loop: entries are appended to the cleared
log one at a time; the first malformed record stops the loop with the
error flag set, leaving the entries appended so far. -/
def loadLoop : List RawEntry → List ActivityEntry → List ActivityEntry × Bool
  | [], acc => (acc, false)
  | r :: rs, acc =>
    match parseEntry r with
    | some e => loadLoop rs (acc ++ [e])
    | none => (acc, true)

/-- Model of `load_from_file` (lines 266-282): `self.activity_log = []` discards the
previous log, then the loop appends parsed entries.  Returns the resulting
in-memory log and whether an exception escaped. -/
def load_from_file (_previousLog : List ActivityEntry) (raws : List RawEntry) :
    List ActivityEntry × Bool :=
  loadLoop raws []

/-! ## Tool descriptor builder (aideck/core/tools.py, Tool._parameters_from_type_hints) -/

/-- Model of a Python annotation as the builder observes it: the basic
named classes, `Optional`, parameterized `List`/`Dict`, and any other
annotation carrying its `__name__` (or `str()` form). -/
inductive PyType where
  | pyStr
  | pyInt
  | pyFloat
  | pyBool
  | pyListBare
  | pyDictBare
  | pyOptional (t : PyType)
  | pyListOf (item : PyType)
  | pyDictOf (key value : PyType)
  | pyOther (name : String)
deriving DecidableEq, Repr

/-- Model of `getattr(param_type, "__name__", str(param_type))`: parameterized
generics have no `__name__` and their `str()` form is never a key of the
mapping table; it is rendered here as a fixed non-key string. -/
def PyType.typeName : PyType → String
  | .pyStr => "str"
  | .pyInt => "int"
  | .pyFloat => "float"
  | .pyBool => "bool"
  | .pyListBare => "list"
  | .pyDictBare => "dict"
  | .pyOther n => n
  | _ => "typing-generic"

/-- A JSON-schema fragment for one parameter (`type`, optional `items`,
optional `additionalProperties`, optional `description`). -/
inductive ParamSchema where
  | mk (type : String) (items : Option ParamSchema)
       (addProps : Option ParamSchema) (descr : Option String)

def ParamSchema.type : ParamSchema → String
  | .mk t _ _ _ => t

def ParamSchema.descr : ParamSchema → Option String
  | .mk _ _ _ d => d

def ParamSchema.withDescr : ParamSchema → String → ParamSchema
  | .mk t i a _, d => .mk t i a (some d)

/-- A bare schema with only a `type` field. -/
def typeOnly (t : String) : ParamSchema := .mk t none none none

/-- The `type_mapping` table of `_parameters_from_type_hints`
(lines 95-102), looked up by type name with the given default
(`type_mapping.get(name, default)` and `type_mapping[name]`). -/
def typeMappingGet (n : String) (default : ParamSchema) : ParamSchema :=
  if n = "str" then typeOnly "string"
  else if n = "int" then typeOnly "integer"
  else if n = "float" then typeOnly "number"
  else if n = "bool" then typeOnly "boolean"
  else if n = "list" then .mk "array" (some (typeOnly "string")) none none
  else if n = "dict" then typeOnly "object"
  else default

/-- Membership of a name in the `type_mapping` table. -/
def inTypeMapping (n : String) : Bool :=
  n = "str" || n = "int" || n = "float" || n = "bool" || n = "list" || n = "dict"

/-- The `Optional[T] = Union[T, None]` unwrapping (lines 114-120): take the
single non-None alternative. -/
def resolveOptional : PyType → PyType
  | .pyOptional t => t
  | t => t

/-- The per-parameter schema of `_parameters_from_type_hints`
(lines 111-139): unwrap Optional, use the mapping table when the type name
is a key, handle parameterized list/dict through their item/value type
names, and degrade everything else to the string schema. -/
def inferSchema (annot : PyType) : ParamSchema :=
  let t := resolveOptional annot
  let n := t.typeName
  if inTypeMapping n then typeMappingGet n (typeOnly "string")
  else
    match t with
    | .pyListOf item =>
      .mk "array" (some (typeMappingGet item.typeName (typeOnly "string"))) none none
    | .pyDictOf _ value =>
      .mk "object" none (some (typeMappingGet value.typeName (typeOnly "string"))) none
    | _ => typeOnly "string"

/-- One declared parameter of the handler: its name, annotation, and
whether it has a default value (`param.default == param.empty` is the
negation). -/
structure PyParam where
  name : String
  annot : PyType
  hasDefault : Bool
deriving DecidableEq, Repr

/-- The observable signature and behavior of a Python callable: declared
parameters, whether `"**"` occurs in `str(signature(func))` (a
`**kwargs` catch-all), the cleaned docstring split into lines, and the
call behavior itself (kwargs to the JSON-dumped result). -/
structure PyFunc where
  params : List PyParam
  hasKwargs : Bool
  docLines : Option (List String)
  impl : List (String × String) → String

/-- The docstring scan of lines 141-147 for one line: if the stripped line
starts with `"<name>:"`, the description is everything after the first
colon of the raw line, stripped. -/
def descrOfLine (name : String) (line : String) : Option String :=
  if line.trim.startsWith (name ++ ":") then
    some (String.intercalate ":" ((line.splitOn ":").tail)).trim
  else none

/-- The whole docstring scan: the loop overwrites the description on every
matching line, so the last match wins. -/
def lastDescrLine (lines : List String) (name : String) : Option String :=
  lines.foldl (fun acc l => match descrOfLine name l with
    | some d => some d
    | none => acc) none

/-- The mutable `parameters` dict being built: the `properties` dict and
the `required` list. -/
structure ParamsDict where
  properties : List (String × ParamSchema)
  required : List String

/-- The schema stored for one parameter: the inferred type schema with the
docstring description attached when the scan finds one. -/
def schemaFor (docLines : Option (List String)) (p : PyParam) : ParamSchema :=
  let sch := inferSchema p.annot
  match docLines with
  | none => sch
  | some lines =>
    match lastDescrLine lines p.name with
    | some d => sch.withDescr d
    | none => sch

/-- One iteration of the parameter loop (lines 107-153): skip `self`,
store the parameter schema under the parameter name, and append to
`required` when the parameter has no default. -/
def buildStep (docLines : Option (List String)) (acc : ParamsDict) (p : PyParam) :
    ParamsDict :=
  if p.name = "self" then acc
  else
    { properties := assocSet acc.properties p.name (schemaFor docLines p)
      required := if p.hasDefault then acc.required else acc.required ++ [p.name] }

/-- The four basic annotations of the mapping table and their schema type
names (str, int, float, bool). -/
def basicSchemaName : PyType → Option String
  | .pyStr => some "string"
  | .pyInt => some "integer"
  | .pyFloat => some "number"
  | .pyBool => some "boolean"
  | _ => none

/-- Model of `Tool._parameters_from_type_hints` (lines 92-155): fold the loop over
the declared parameters starting from
`{"type": "object", "properties": {}, "required": []}`. -/
def parametersFromTypeHints (params : List PyParam) (docLines : Option (List String)) :
    ParamsDict :=
  params.foldl (buildStep docLines) ⟨[], []⟩

/-! ## Tool and ToolRegistry (aideck/core/tools.py) -/

/-- The reasons `Tool._validate_signature` raises `ToolError`. -/
inductive ToolError where
  | missingParams
  | extraParams
deriving DecidableEq, Repr

/-- A constructed `Tool` dataclass value. -/
structure Tool where
  name : String
  description : String
  parameters : ParamsDict
  func : PyFunc

/-- Model of `Tool._validate_signature` (lines 27-45): error when some schema
property is not a declared parameter; otherwise error when some declared
parameter is outside the schema and the signature has no `**` catch-all. -/
def validateSignature (parameters : ParamsDict) (func : PyFunc) : Option ToolError :=
  let paramNames := func.params.map PyParam.name
  let schemaParams := parameters.properties.map Prod.fst
  let missing := schemaParams.filter (fun s => decide (s ∉ paramNames))
  if missing ≠ [] then some .missingParams
  else
    let extra := paramNames.filter (fun s => decide (s ∉ schemaParams))
    if extra ≠ [] ∧ func.hasKwargs = false then some .extraParams
    else none

/-- The `Tool.__post_init__` validation at construction: a `Tool` value exists
only when `_validate_signature` does not raise. -/
def Tool.create (name description : String) (parameters : ParamsDict) (func : PyFunc) :
    Except ToolError Tool :=
  match validateSignature parameters func with
  | some e => .error e
  | none => .ok { name := name, description := description,
                  parameters := parameters, func := func }

/-- The `ToolRegistry` class: the `tools` dict keyed by name. -/
structure ToolRegistry where
  tools : List (String × Tool)

/-- Model of `ToolRegistry.register` for an already-constructed tool: last
registration wins (dict assignment; the duplicate case only logs a
warning). -/
def ToolRegistry.register (r : ToolRegistry) (t : Tool) : ToolRegistry :=
  ⟨assocSet r.tools t.name t⟩

/-- Model of `ToolRegistry.get_tool` (lines 174-176): `self.tools.get(name)`. -/
def ToolRegistry.get_tool (r : ToolRegistry) (name : String) : Option Tool :=
  assocGet r.tools name

/-! ## The agent loop (gpt_computer_agent/core/agent.py, GPTChatAgent.run)

The external completion capability is a deterministic oracle from the
message history sent to the response returned.  Tool-call arguments are
modelled in their JSON-decoded kwargs form (the JSON text serialization at
the capability boundary is the collaborator contract of spec section 6). -/

/-- One requested tool invocation of a completion response
(`tool_call.id`, `.function.name`, and the decoded `.function.arguments`). -/
structure ToolCall where
  id : String
  name : String
  args : List (String × String)
deriving DecidableEq, Repr

/-- A completion response message: final text content and/or requested
tool calls.  `tool_calls = []` models both an absent attribute and a falsy
value, the condition of line 110. -/
structure ResponseMsg where
  content : Option String
  tool_calls : List ToolCall
deriving DecidableEq, Repr

/-- One entry of `self.messages`. -/
inductive Message where
  | user (content : String)
  | assistant (response : ResponseMsg)
  | agentToolCalls (calls : List ToolCall)
  | toolResult (tool_call_id : String) (name : String) (content : String)
deriving DecidableEq, Repr

/-- The tool dispatch loop of lines 115-128: look each requested call up
in the registry; when present, run it and append the tool-result message;
when absent, fall through silently.  Returns the grown history and the
list of invocations actually executed. -/
def dispatchToolCalls (registry : ToolRegistry) (messages : List Message)
    (calls : List ToolCall) : List Message × List ToolCall :=
  calls.foldl (fun acc tc =>
    match registry.get_tool tc.name with
    | some tool =>
      (acc.1 ++ [.toolResult tc.id tc.name (tool.func.impl tc.args)], acc.2 ++ [tc])
    | none => acc) (messages, [])

/-- The observable outcome of one `GPTChatAgent.run` turn: the returned
content, the final message history, the histories sent with each
completion request in order, and the tool invocations executed. -/
structure RunResult where
  final : Option String
  messages : List Message
  requestHistories : List (List Message)
  executed : List ToolCall

/-- Model of `GPTChatAgent.run` (agent.py lines 91-142) over a completion oracle:
append the user message, issue the first request, append the response; if
it carries tool calls, append the agent tool-call marker, dispatch each
call, issue exactly one follow-up request and append its response; the
follow-up response is returned as-is, its own tool calls never dispatched. -/
def GPTChatAgent.run (registry : ToolRegistry) (history : List Message)
    (message : String) (oracle : List Message → ResponseMsg) : RunResult :=
  let m1 := history ++ [.user message]
  let response := oracle m1
  let m2 := m1 ++ [.assistant response]
  if response.tool_calls.isEmpty then
    { final := response.content, messages := m2,
      requestHistories := [m1], executed := [] }
  else
    let m3 := m2 ++ [.agentToolCalls response.tool_calls]
    let dispatched := dispatchToolCalls registry m3 response.tool_calls
    let second := oracle dispatched.1
    { final := second.content
      messages := dispatched.1 ++ [.assistant second]
      requestHistories := [m1, dispatched.1]
      executed := dispatched.2 }

/-! ## Concrete instances used by the theorems below -/

/-- The entry of the spec regression scenario: user activity text
"coding and debugging", empty content summary and window title. -/
def codingEntry : ActivityEntry :=
  { timestamp := 0, app_name := "", window_title := "", content_summary := "",
    user_activity := "coding and debugging", category := .uncategorized, confidence := 0 }

/-- A well-formed work entry. -/
def goodEntry : ActivityEntry :=
  { timestamp := 0, app_name := "IDE", window_title := "main.py",
    content_summary := "code", user_activity := "coding", category := .work,
    confidence := 1/2 }

/-- A malformed persisted record: its category string is not one of the
four enum values, so `ActivityCategory(...)` raises on it. -/
def badRaw : RawEntry :=
  { timestamp := some 1, app_name := some "IDE", window_title := some "x",
    content_summary := some "y", user_activity := some "z",
    category := some "working", confidence := some 0 }

/-- An entry already categorized as work. -/
def workEntry : ActivityEntry :=
  { timestamp := 0, app_name := "IDE", window_title := "main.py",
    content_summary := "code", user_activity := "coding", category := .work,
    confidence := 1 }

/-- An entry already categorized as uncategorized. -/
def idleEntry : ActivityEntry :=
  { timestamp := 0, app_name := "Web", window_title := "page",
    content_summary := "misc", user_activity := "browsing", category := .uncategorized,
    confidence := 0 }

/-- A registered tool with no parameters whose handler returns "ok". -/
def echoTool : Tool :=
  { name := "echo", description := "echo back", parameters := ⟨[], []⟩,
    func := { params := [], hasKwargs := false, docLines := none,
              impl := fun _ => "ok" } }

/-- A registry holding exactly the echo tool. -/
def cRegistry : ToolRegistry := ⟨[("echo", echoTool)]⟩

/-- A tool call naming the registered tool. -/
def cTc1 : ToolCall := ⟨"call-1", "echo", []⟩

/-- A tool call naming an unregistered tool. -/
def cTc2 : ToolCall := ⟨"call-2", "ghost", []⟩

/-- A completion oracle: the first request returns the two tool calls, any
later request returns plain content. -/
def cOracle : List Message → ResponseMsg := fun msgs =>
  if msgs.length = 1 then ⟨none, [cTc1, cTc2]⟩ else ⟨some "ghost", []⟩

/-- A handler with one no-default parameter `x`. -/
def mismatchFunc : PyFunc :=
  { params := [⟨"x", .pyInt, false⟩], hasKwargs := false, docLines := none,
    impl := fun _ => "0" }

/-! ## Shared lemmas -/

/-- A dict assignment stores the value under the assigned key. -/
lemma assocGet_set_self (l : List (String × α)) (k : String) (v : α) :
    assocGet (assocSet l k v) k = some v := by
  induction l with
  | nil => simp [assocSet, assocGet]
  | cons q t ih =>
    by_cases h : q.1 = k
    · simp [assocSet, assocGet, h]
    · simpa [assocSet, assocGet, h] using ih

/-- A dict assignment leaves every other key unchanged. -/
lemma assocGet_set_ne (l : List (String × α)) (k n : String) (v : α) (h : k ≠ n) :
    assocGet (assocSet l k v) n = assocGet l n := by
  induction l with
  | nil => simp [assocSet, assocGet, h]
  | cons q t ih =>
    by_cases hq : q.1 = k
    · subst hq
      simp [assocSet, assocGet, h]
    · by_cases hn : q.1 = n
      · have hnk : ¬ n = k := fun e => h e.symm
        simp [assocSet, assocGet, hq, hn, hnk]
      · simpa [assocSet, assocGet, hq, hn] using ih

/-- A filter result is non-nil exactly when some element satisfies the
predicate. -/
lemma filter_ne_nil_iff (p : α → Bool) (l : List α) :
    l.filter p ≠ [] ↔ ∃ a ∈ l, p a = true := by
  rw [Ne, List.filter_eq_nil_iff]
  push_neg
  simp

/-- The Python max scan commutes with mapping a function over the keys. -/
lemma maxLoop_map (f : α → β) (l : List (α × Nat)) :
    ∀ b : α × Nat,
      maxLoop (f b.1, b.2) (l.map (fun p => (f p.1, p.2))) =
        (f (maxLoop b l).1, (maxLoop b l).2) := by
  induction l with
  | nil => intro b; rfl
  | cons y ys ih =>
    intro b
    have h1 : maxLoop (f b.1, b.2) ((y :: ys).map (fun p => (f p.1, p.2))) =
        maxLoop (if (f b.1, b.2).2 < (f y.1, y.2).2 then (f y.1, y.2) else (f b.1, b.2))
          (ys.map (fun p => (f p.1, p.2))) := rfl
    have h2 : maxLoop b (y :: ys) = maxLoop (if b.2 < y.2 then y else b) ys := rfl
    rw [h1, h2]
    have hstep : (if (f b.1, b.2).2 < (f y.1, y.2).2 then (f y.1, y.2) else (f b.1, b.2)) =
        (f (if b.2 < y.2 then y else b).1, (if b.2 < y.2 then y else b).2) := by
      by_cases h : b.2 < y.2 <;> simp [h]
    rw [hstep]
    exact ih (if b.2 < y.2 then y else b)

/-- The Python max scan returns its start element or a list element. -/
lemma maxLoop_mem (l : List (α × Nat)) :
    ∀ b : α × Nat, maxLoop b l = b ∨ maxLoop b l ∈ l := by
  induction l with
  | nil => intro b; exact Or.inl rfl
  | cons y ys ih =>
    intro b
    have h2 : maxLoop b (y :: ys) = maxLoop (if b.2 < y.2 then y else b) ys := rfl
    rw [h2]
    rcases ih (if b.2 < y.2 then y else b) with h | h
    · rw [h]
      by_cases hc : b.2 < y.2
      · simp [hc]
      · simp [hc]
    · exact Or.inr (List.mem_cons_of_mem _ h)

/-- Saving one entry and parsing the record back reproduces the entry. -/
lemma parseEntry_saveEntry (e : ActivityEntry) : parseEntry (saveEntry e) = some e := by
  cases e with
  | mk ts an wt cs ua cat conf =>
    cases cat <;>
      simp [parseEntry, saveEntry, ActivityCategory.ofValue, ActivityCategory.value]

/-- The load loop over saved records appends them all and reports no error. -/
lemma loadLoop_save (log : List ActivityEntry) :
    ∀ acc, loadLoop (log.map saveEntry) acc = (acc ++ log, false) := by
  induction log with
  | nil => intro acc; simp [loadLoop]
  | cons e rest ih =>
    intro acc
    simp [loadLoop, parseEntry_saveEntry, ih]

/-- When some record is malformed, the load loop stops at the first such
record with the error flag set, keeping the entries parsed before it. -/
lemma loadLoop_stops (raws : List RawEntry) :
    ∀ acc, (∃ r ∈ raws, parseEntry r = none) →
      loadLoop raws acc =
        (acc ++ (raws.takeWhile (fun r => (parseEntry r).isSome)).filterMap parseEntry,
         true) := by
  induction raws with
  | nil => intro acc h; simp at h
  | cons r rest ih =>
    intro acc h
    cases hp : parseEntry r with
    | none => simp [loadLoop, hp, List.takeWhile]
    | some e =>
      have hrest : ∃ q ∈ rest, parseEntry q = none := by
        rcases h with ⟨q, hq, hqn⟩
        rcases List.mem_cons.mp hq with rfl | hq2
        · exact absurd hqn (by simp [hp])
        · exact ⟨q, hq2, hqn⟩
      simp [loadLoop, hp, List.takeWhile, ih _ hrest]

/-- Every invocation accumulated by the dispatch fold comes from the start
accumulator or from the dispatched call list. -/
lemma dispatch_executed_mem (registry : ToolRegistry) (calls : List ToolCall) :
    ∀ (p : List Message × List ToolCall) (tc : ToolCall),
      tc ∈ (calls.foldl (fun acc tc =>
        match registry.get_tool tc.name with
        | some tool =>
          (acc.1 ++ [.toolResult tc.id tc.name (tool.func.impl tc.args)], acc.2 ++ [tc])
        | none => acc) p).2 →
      tc ∈ p.2 ∨ tc ∈ calls := by
  induction calls with
  | nil => intro p tc h; exact Or.inl h
  | cons c cs ih =>
    intro p tc h
    rcases ih _ tc h with hin | hin
    · cases hg : registry.get_tool c.name with
      | none => simp [hg] at hin; exact Or.inl hin
      | some tool =>
        simp [hg] at hin
        rcases hin with hin | rfl
        · exact Or.inl hin
        · exact Or.inr (List.mem_cons_self _ _)
    · exact Or.inr (List.mem_cons_of_mem _ hin)

/-- Every invocation executed by the dispatch loop is one of the requested
calls. -/
lemma dispatch_executed_sub (registry : ToolRegistry) (msgs : List Message)
    (calls : List ToolCall) (tc : ToolCall)
    (h : tc ∈ (dispatchToolCalls registry msgs calls).2) : tc ∈ calls := by
  have h2 := dispatch_executed_mem registry calls (msgs, []) tc
    (by simpa [dispatchToolCalls] using h)
  rcases h2 with h2 | h2
  · simp at h2
  · exact h2

/-- The required list grows by exactly the names of the non-self,
no-default parameters, in order. -/
lemma build_required (doc : Option (List String)) (params : List PyParam) :
    ∀ acc : ParamsDict,
      (params.foldl (buildStep doc) acc).required =
        acc.required ++
          (params.filter (fun p => decide (p.name ≠ "self") && !p.hasDefault)).map
            PyParam.name := by
  induction params with
  | nil => intro acc; simp
  | cons p ps ih =>
    intro acc
    by_cases hs : p.name = "self"
    · simp [buildStep, hs, ih]
    · by_cases hd : p.hasDefault
      · simp [buildStep, hs, hd, ih]
      · simp [buildStep, hs, hd, ih, List.filter_cons]

/-- The parameter loop never touches a property key that no parameter
carries. -/
lemma build_props_skip (doc : Option (List String)) (params : List PyParam) :
    ∀ (acc : ParamsDict) (n : String), (∀ p ∈ params, p.name ≠ n) →
      assocGet (params.foldl (buildStep doc) acc).properties n =
        assocGet acc.properties n := by
  induction params with
  | nil => intro acc n _; rfl
  | cons p ps ih =>
    intro acc n h
    have hp : p.name ≠ n := h p (List.mem_cons_self _ _)
    have hps : ∀ q ∈ ps, q.name ≠ n := fun q hq => h q (List.mem_cons_of_mem _ hq)
    by_cases hs : p.name = "self"
    · simp only [List.foldl_cons, buildStep, hs, if_pos]
      exact ih acc n hps
    · simp only [List.foldl_cons, buildStep, hs, if_neg, ite_false]
      rw [ih _ n hps]
      exact assocGet_set_ne _ _ _ _ hp

/-- With distinct parameter names, the properties dict maps each non-self
parameter to its computed schema. -/
lemma build_props_found (doc : Option (List String)) (params : List PyParam) :
    ∀ (acc : ParamsDict) (p : PyParam), p ∈ params → p.name ≠ "self" →
      (params.map PyParam.name).Nodup →
      assocGet (params.foldl (buildStep doc) acc).properties p.name =
        some (schemaFor doc p) := by
  induction params with
  | nil => intro acc p h; exact absurd h (List.not_mem_nil p)
  | cons q qs ih =>
    intro acc p hmem hself hnodup
    have hnodup2 : (qs.map PyParam.name).Nodup := (List.nodup_cons.mp hnodup).2
    rcases List.mem_cons.mp hmem with rfl | hmem2
    · have hnotin : ∀ r ∈ qs, r.name ≠ p.name := by
        intro r hr heq
        exact (List.nodup_cons.mp hnodup).1 (heq ▸ List.mem_map_of_mem PyParam.name hr)
      simp only [List.foldl_cons, buildStep, hself, ite_false, if_neg]
      rw [build_props_skip doc qs _ p.name hnotin]
      exact assocGet_set_self _ _ _
    · exact ih _ p hmem2 hself hnodup2

/-- Attaching a description preserves the schema type. -/
lemma withDescr_type (s : ParamSchema) (d : String) :
    (s.withDescr d).type = s.type := by
  cases s; rfl

/-- The stored schema has the inferred type whatever the docstring says. -/
lemma schemaFor_type (doc : Option (List String)) (p : PyParam) :
    (schemaFor doc p).type = (inferSchema p.annot).type := by
  cases doc with
  | none => rfl
  | some lines =>
    simp only [schemaFor]
    cases hld : lastDescrLine lines p.name with
    | none => rfl
    | some d => simp [withDescr_type]

/-- The four basic annotations map to their table types. -/
lemma inferSchema_basic (t : PyType) (s : String) (h : basicSchemaName t = some s) :
    (inferSchema t).type = s := by
  cases t <;> simp_all [basicSchemaName, inferSchema, resolveOptional, PyType.typeName,
    inTypeMapping, typeMappingGet, typeOnly, ParamSchema.type]

/-- On the regression entry the tracker classifier returns uncategorized
with confidence 2/26. -/
lemma trackerCategorize_coding :
    trackerCategorize codingEntry = (.uncategorized, 2/26) := by
  have hscores :
      categoryKeywords.map (fun p => (p.1, p.2.countP (fun kw =>
        strContains (pyLower (codingEntry.user_activity ++ " " ++ codingEntry.content_summary
          ++ " " ++ codingEntry.window_title)) kw)))
      = [(.work, 2), (.communication, 0), (.breaks, 0)] := by decide
  simp only [trackerCategorize]
  rw [hscores]
  norm_num [maxLoop, List.foldl, catDictGet, categoryKeywords]

/-! ## The claims -/

/-- C1: one call to the agent run issues at most two completion requests
(one initial, at most one follow-up after tool dispatch), and every tool
invocation executed comes from the first response, so tool calls in the
second response are never executed and no third request is issued. -/
theorem C1_single_hop (registry : ToolRegistry) (history : List Message)
    (message : String) (oracle : List Message → ResponseMsg) :
    (GPTChatAgent.run registry history message oracle).requestHistories.length ≤ 2 ∧
    ∀ tc ∈ (GPTChatAgent.run registry history message oracle).executed,
      tc ∈ (oracle (history ++ [.user message])).tool_calls := by
  simp only [GPTChatAgent.run]
  by_cases h : (oracle (history ++ [.user message])).tool_calls.isEmpty
  · simp [h]
  · simp only [h, if_false, Bool.false_eq_true]
    refine ⟨by simp, ?_⟩
    intro tc htc
    exact dispatch_executed_sub registry _ _ tc htc

/-- C2: a requested invocation whose name is absent from the registry is
skipped silently (the dispatch state is unchanged and no error arises, the
dispatch being a total function); consequently, for a first response with
exactly two tool calls, one registered and one not, the follow-up request
is sent exactly the pre-dispatch history plus one tool-result message. -/
theorem C2_silent_skip :
    (∀ (registry : ToolRegistry) (messages : List Message) (tc : ToolCall)
       (rest : List ToolCall),
        registry.get_tool tc.name = none →
        dispatchToolCalls registry messages (tc :: rest) =
          dispatchToolCalls registry messages rest) ∧
    (∀ (registry : ToolRegistry) (history : List Message) (message : String)
       (oracle : List Message → ResponseMsg) (t : Tool) (tc1 tc2 : ToolCall),
        registry.get_tool tc1.name = some t →
        registry.get_tool tc2.name = none →
        (oracle (history ++ [.user message])).tool_calls = [tc1, tc2] →
        (GPTChatAgent.run registry history message oracle).requestHistories =
          [history ++ [.user message],
           history ++ [.user message]
             ++ [.assistant (oracle (history ++ [.user message]))]
             ++ [.agentToolCalls [tc1, tc2],
                 .toolResult tc1.id tc1.name (t.func.impl tc1.args)]]) := by
  constructor
  · intro registry messages tc rest hnone
    simp [dispatchToolCalls, hnone]
  · intro registry history message oracle t tc1 tc2 h1 h2 hcalls
    simp only [GPTChatAgent.run, hcalls]
    simp [dispatchToolCalls, h1, h2]

/-- C2 witness: both parts of the silent-skip theorem evaluated on the
concrete registry, oracle and tool calls. -/
theorem C2_witness :
    (GPTChatAgent.run cRegistry [] "hi" cOracle).requestHistories =
      [[Message.user "hi"],
       [Message.user "hi",
        .assistant ⟨none, [cTc1, cTc2]⟩,
        .agentToolCalls [cTc1, cTc2],
        .toolResult "call-1" "echo" "ok"]] ∧
    dispatchToolCalls cRegistry [] [cTc2] = dispatchToolCalls cRegistry [] [] := by
  constructor
  · have h := C2_silent_skip.2 cRegistry [] "hi" cOracle echoTool cTc1 cTc2 rfl rfl rfl
    simpa [cOracle, cTc1, cTc2, echoTool] using h
  · exact C2_silent_skip.1 cRegistry [] cTc2 [] rfl

/-- C3 counterexample: one work entry at the 10-second slice.  The code
reports percentage 0 because the floored minute total is 0, while the
claim formula floor(100 * category_seconds / total_seconds) gives 100 on
the same input (total_seconds = 10 > 0). -/
theorem C3_cx :
    (timeDistribution [workEntry] (calculateTotalMinutes [workEntry]) .work).2 = 0 ∧
    categorySeconds [workEntry] .work = 10 ∧
    0 < 10 * [workEntry].length ∧
    100 * categorySeconds [workEntry] .work / (10 * [workEntry].length) = 100 ∧
    (0 : Nat) ≠ 100 := by
  refine ⟨rfl, rfl, by decide, rfl, by decide⟩

/-- C3 amended: the per-category percentage equals
floor(100 * category_seconds / (60 * total_tracked_minutes)) when
total_tracked_minutes is positive and 0 otherwise, where
total_tracked_minutes = floor(10 * entry_count / 60); the divisor is the
floored minute total rescaled to seconds, not the raw total seconds. -/
theorem C3_amended (activities : List ActivityEntry) (c : ActivityCategory) :
    (timeDistribution activities (calculateTotalMinutes activities) c).2 =
      if 0 < 10 * activities.length / 60 then
        100 * categorySeconds activities c / (60 * (10 * activities.length / 60))
      else 0 := by
  cases activities with
  | nil => simp [timeDistribution, calculateTotalMinutes, categorySeconds]
  | cons e rest =>
    have hne : (e :: rest).isEmpty = false := rfl
    simp only [timeDistribution, calculateTotalMinutes, hne, Bool.false_eq_true, if_false,
      SNAPSHOT_INTERVAL]
    generalize categorySeconds (e :: rest) c = s
    generalize (e :: rest).length = n
    rw [Nat.mul_comm n 10, Nat.mul_comm s 100, Nat.mul_comm (10 * n / 60) 60]

/-- C4 counterexample: 7 work entries and 11 uncategorized entries.  The
code divides by the summary total of 3 tracked minutes and returns 33,
while the claim formula floor(100 * (work + communication) /
total_categorized_minutes) gives 100 (categorized = work + communication +
breaks = 1) or 50 (all four categories = 2). -/
theorem C4_cx :
    getProductivityInsights
        (mkSummary "2024-01-01" (List.replicate 7 workEntry ++ List.replicate 11 idleEntry)) =
      some 33 ∧
    ((mkSummary "2024-01-01" (List.replicate 7 workEntry ++ List.replicate 11 idleEntry)).time_distribution .work).1 = 1 ∧
    ((mkSummary "2024-01-01" (List.replicate 7 workEntry ++ List.replicate 11 idleEntry)).time_distribution .communication).1 = 0 ∧
    ((mkSummary "2024-01-01" (List.replicate 7 workEntry ++ List.replicate 11 idleEntry)).time_distribution .breaks).1 = 0 ∧
    ((mkSummary "2024-01-01" (List.replicate 7 workEntry ++ List.replicate 11 idleEntry)).time_distribution .uncategorized).1 = 1 ∧
    100 * (1 + 0) / (1 + 0 + 0) = 100 ∧
    100 * (1 + 0) / (1 + 0 + 0 + 1) = 50 ∧
    some (33 : Nat) ≠ some 100 ∧ some (33 : Nat) ≠ some 50 := by
  refine ⟨rfl, rfl, rfl, rfl, rfl, rfl, rfl, by decide, by decide⟩

/-- C4 amended: the productivity score is
floor(100 * (work_minutes + communication_minutes) / total_tracked_minutes)
whenever the summary has a positive floored minute total, and no score at
all (the no-data message path) when that total is 0. -/
theorem C4_amended (today : String) (activities : List ActivityEntry) :
    getProductivityInsights (mkSummary today activities) =
      if 10 * activities.length / 60 = 0 then none
      else some ((categorySeconds activities .work / 60 +
                  categorySeconds activities .communication / 60) * 100 /
                 (10 * activities.length / 60)) := by
  cases activities with
  | nil => simp [getProductivityInsights, mkSummary, calculateTotalMinutes, timeDistribution,
      categorySeconds]
  | cons e rest =>
    have hne : (e :: rest).isEmpty = false := rfl
    simp only [getProductivityInsights, mkSummary, calculateTotalMinutes, timeDistribution,
      hne, Bool.false_eq_true, if_false, SNAPSHOT_INTERVAL]
    generalize categorySeconds (e :: rest) ActivityCategory.work = w
    generalize categorySeconds (e :: rest) ActivityCategory.communication = k
    generalize (e :: rest).length = n
    rw [Nat.mul_comm n 10]
    by_cases h : 10 * n / 60 = 0
    · simp [h]
    · simp [h, Nat.pos_of_ne_zero h]

/-- C5 counterexample: classifying the "coding and debugging" entry scores
exactly 2 work keywords, but the work list has 26 keywords, so the
reported confidence is 2/26, not the claimed 2/25 = 0.08. -/
theorem C5_cx :
    trackerCategorize codingEntry = (.uncategorized, 2/26) ∧
    WORK_KEYWORDS.countP (fun kw =>
      strContains (pyLower ("coding and debugging" ++ " " ++ "" ++ " " ++ "")) kw) = 2 ∧
    WORK_KEYWORDS.length = 26 ∧
    (2 : ℚ)/26 ≠ 2/25 ∧
    (2 : ℚ)/25 = 8/100 := by
  refine ⟨trackerCategorize_coding, by decide, by decide, by norm_num, by norm_num⟩

/-- C5 amended: the entry scores exactly 2 work-keyword matches, the work
keyword list has 26 entries, the confidence is 2/26, below the 0.3
threshold, so the category is uncategorized with unmodified confidence
2/26. -/
theorem C5_amended :
    trackerCategorize codingEntry = (.uncategorized, 2/26) ∧
    WORK_KEYWORDS.countP (fun kw =>
      strContains (pyLower ("coding and debugging" ++ " " ++ "" ++ " " ++ "")) kw) = 2 ∧
    WORK_KEYWORDS.length = 26 ∧
    (2 : ℚ)/26 < 3/10 := by
  refine ⟨trackerCategorize_coding, by decide, by decide, by norm_num⟩

/-- C6 counterexample: loading a file holding one well-formed record and
then one with an invalid category value raises (error flag true), yet the
in-memory log is left holding the first entry, a partial subset of the
file. -/
theorem C6_cx :
    (load_from_file [] [saveEntry goodEntry, badRaw]).2 = true ∧
    (load_from_file [] [saveEntry goodEntry, badRaw]).1 = [goodEntry] := by
  constructor <;> rfl

/-- C6 amended: loading a file with a malformed record raises an error,
but the previous log is cleared and the in-memory log is left holding
exactly the well-formed entries preceding the first malformed record. -/
theorem C6_amended (previousLog : List ActivityEntry) (raws : List RawEntry)
    (h : ∃ r ∈ raws, parseEntry r = none) :
    (load_from_file previousLog raws).2 = true ∧
    (load_from_file previousLog raws).1 =
      (raws.takeWhile (fun r => (parseEntry r).isSome)).filterMap parseEntry := by
  simp [load_from_file, loadLoop_stops raws [] h]

/-- C6 witness: the amended load theorem evaluated on the concrete
two-record file. -/
theorem C6_witness :
    (load_from_file [] [saveEntry goodEntry, badRaw]).2 = true ∧
    (load_from_file [] [saveEntry goodEntry, badRaw]).1 =
      (([saveEntry goodEntry, badRaw].takeWhile
          (fun r => (parseEntry r).isSome)).filterMap parseEntry) :=
  C6_amended [] [saveEntry goodEntry, badRaw]
    ⟨badRaw, by simp, rfl⟩

/-- C7 counterexample: a tool whose schema mentions property x with an
empty required list although handler parameter x has no default constructs
without error, so a required/optional mismatch is not a hard error and the
claimed equivalence fails. -/
theorem C7_cx :
    ((Tool.create "adder" "adds" ⟨[("x", typeOnly "integer")], []⟩ mismatchFunc).toOption).isSome
      = true ∧
    (mismatchFunc.params.filter (fun p => !p.hasDefault)).map PyParam.name = ["x"] ∧
    (([] : List String) ≠ ["x"]) := by
  refine ⟨rfl, rfl, by simp⟩

/-- C7 amended: tool construction fails exactly when some schema property
is not a declared handler parameter, or some declared parameter is outside
the schema and the signature has no kwargs catch-all; the required list is
never compared against default values. -/
theorem C7_amended (name description : String) (props : List (String × ParamSchema))
    (req : List String) (func : PyFunc) :
    ((Tool.create name description ⟨props, req⟩ func).toOption).isSome = false ↔
      ((∃ s ∈ props.map Prod.fst, s ∉ func.params.map PyParam.name) ∨
       ((∃ s ∈ func.params.map PyParam.name, s ∉ props.map Prod.fst) ∧
        func.hasKwargs = false)) := by
  have hmichar : ((props.map Prod.fst).filter
        (fun s => decide (s ∉ func.params.map PyParam.name)) = []) ↔
      (∀ s ∈ props.map Prod.fst, s ∈ func.params.map PyParam.name) := by
    simp [List.filter_eq_nil_iff]
  have hexchar : ((func.params.map PyParam.name).filter
        (fun s => decide (s ∉ props.map Prod.fst)) = []) ↔
      (∀ s ∈ func.params.map PyParam.name, s ∈ props.map Prod.fst) := by
    simp [List.filter_eq_nil_iff]
  by_cases hm : (props.map Prod.fst).filter
      (fun s => decide (s ∉ func.params.map PyParam.name)) = []
  · by_cases he : (func.params.map PyParam.name).filter
        (fun s => decide (s ∉ props.map Prod.fst)) = []
    · have hv : validateSignature ⟨props, req⟩ func = none := by
        simp only [validateSignature]
        simp only [hm, he]
        simp
      apply iff_of_false
      · simp [Tool.create, hv, Except.toOption]
      · rintro (⟨s, hs, hsn⟩ | ⟨⟨s, hs, hsn⟩, _⟩)
        · exact hsn (hmichar.mp hm s hs)
        · exact hsn (hexchar.mp he s hs)
    · by_cases hk : func.hasKwargs
      · have hv : validateSignature ⟨props, req⟩ func = none := by
          simp only [validateSignature]
          simp only [hm, he, hk]
          simp
        apply iff_of_false
        · simp [Tool.create, hv, Except.toOption]
        · rintro (⟨s, hs, hsn⟩ | ⟨_, hk2⟩)
          · exact hsn (hmichar.mp hm s hs)
          · rw [hk] at hk2
            exact Bool.noConfusion hk2
      · have hv : validateSignature ⟨props, req⟩ func = some .extraParams := by
          simp only [validateSignature]
          simp only [ne_eq, hm, he, show func.hasKwargs = false by simpa using hk]
          simp
        apply iff_of_true
        · simp [Tool.create, hv, Except.toOption]
        · right
          refine ⟨?_, by simpa using hk⟩
          have h2 := (filter_ne_nil_iff _ _).mp he
          simpa using h2
  · have hv : validateSignature ⟨props, req⟩ func = some .missingParams := by
      simp only [validateSignature]
      simp only [ne_eq, hm]
      simp
    apply iff_of_true
    · simp [Tool.create, hv, Except.toOption]
    · left
      have h2 := (filter_ne_nil_iff _ _).mp hm
      simpa using h2

/-- C8 counterexample: a parameter literally named self with annotation
str and no default is skipped by the builder, so it appears neither in the
required list nor among the properties, against the universal claim. -/
theorem C8_cx :
    (parametersFromTypeHints [⟨"self", .pyStr, false⟩] none).required = [] ∧
    (parametersFromTypeHints [⟨"self", .pyStr, false⟩] none).properties = [] ∧
    ([ (⟨"self", .pyStr, false⟩ : PyParam) ] ≠ []) ∧
    basicSchemaName .pyStr = some "string" := by
  refine ⟨rfl, rfl, by simp, rfl⟩

/-- C8 amended: for callables with distinct parameter names none of which
is the skipped receiver name self, basic-typed no-default parameters are
all required and typed by the mapping table, a parameter is required
exactly when it has no default, and an unrecognized annotation degrades to
the string schema (the builder being a total function, no exception). -/
theorem C8_amended (params : List PyParam) (docLines : Option (List String))
    (hnodup : (params.map PyParam.name).Nodup)
    (hnoself : ∀ p ∈ params, p.name ≠ "self") :
    ((∀ p ∈ params, p.hasDefault = false) →
       (parametersFromTypeHints params docLines).required = params.map PyParam.name) ∧
    (∀ p ∈ params,
       (p.name ∈ (parametersFromTypeHints params docLines).required ↔
        p.hasDefault = false)) ∧
    (∀ p ∈ params, ∀ s, basicSchemaName p.annot = some s →
       (assocGet (parametersFromTypeHints params docLines).properties p.name).map
           ParamSchema.type = some s) ∧
    (∀ n, inTypeMapping n = false → (inferSchema (.pyOther n)).type = "string") := by
  refine ⟨?_, ?_, ?_, ?_⟩
  · intro hnd
    have hfilter : params.filter (fun p => decide (p.name ≠ "self") && !p.hasDefault)
        = params := by
      apply List.filter_eq_self.mpr
      intro p hp
      simp [hnoself p hp, hnd p hp]
    unfold parametersFromTypeHints
    rw [build_required docLines params ⟨[], []⟩, hfilter]
    rfl
  · intro p hp
    have h := build_required docLines params ⟨[], []⟩
    unfold parametersFromTypeHints
    rw [h]
    simp only [List.nil_append, List.mem_map]
    constructor
    · rintro ⟨q, hqf, hqname⟩
      have hq : q ∈ params := List.mem_of_mem_filter hqf
      have hqp : q = p := List.inj_on_of_nodup_map hnodup hq hp hqname
      subst hqp
      have h2 := List.of_mem_filter hqf
      simp at h2
      exact h2.2
    · intro hnd
      refine ⟨p, ?_, rfl⟩
      apply List.mem_filter.mpr
      refine ⟨hp, ?_⟩
      simp [hnoself p hp, hnd]
  · intro p hp s hbasic
    have h := build_props_found docLines params ⟨[], []⟩ p hp (hnoself p hp) hnodup
    unfold parametersFromTypeHints
    rw [h]
    simp [Option.map, schemaFor_type, inferSchema_basic _ _ hbasic]
  · intro n h
    simp [inferSchema, resolveOptional, PyType.typeName, h, typeOnly, ParamSchema.type]

/-- C8 witness: the amended builder theorem evaluated on two concrete
basic-typed parameters and one unrecognized annotation. -/
theorem C8_witness :
    (parametersFromTypeHints
        [⟨"query", .pyStr, false⟩, ⟨"limit", .pyInt, false⟩] none).required =
      ["query", "limit"] ∧
    ((assocGet (parametersFromTypeHints
        [⟨"query", .pyStr, false⟩, ⟨"limit", .pyInt, false⟩] none).properties
        "limit").map ParamSchema.type = some "integer") ∧
    "query" ∈ (parametersFromTypeHints
        [⟨"query", .pyStr, false⟩, ⟨"limit", .pyInt, false⟩] none).required ∧
    (inferSchema (.pyOther "Widget")).type = "string" := by
  have h := C8_amended [⟨"query", .pyStr, false⟩, ⟨"limit", .pyInt, false⟩] none
    (by simp) (by simp)
  refine ⟨?_, ?_, ?_, ?_⟩
  · have h1 := h.1 (by intro p hp; fin_cases hp <;> rfl)
    simpa using h1
  · have h3 := h.2.2.1 ⟨"limit", .pyInt, false⟩ (by simp) "integer" rfl
    simpa using h3
  · exact (h.2.1 ⟨"query", .pyStr, false⟩ (by simp)).mpr rfl
  · exact h.2.2.2 "Widget" rfl

/-- C9: saving any activity log to the persisted record list and loading
it back reproduces the identical ordered entry sequence, with no error. -/
theorem C9_save_load_round_trip (previousLog log : List ActivityEntry) :
    load_from_file previousLog (save_to_file log) = (log, false) := by
  simp [load_from_file, save_to_file, loadLoop_save]

/-- C10: on every triple of input texts the standalone classifier of
improved_activity_tracker returns exactly the category string and the
confidence that the tracker method computes on an entry carrying those
texts, whatever its other fields. -/
theorem C10_classifier_equiv (ts : Nat) (app wt cs ua : String)
    (cat : ActivityCategory) (conf : ℚ) :
    categorize_activity ua cs wt =
      (((trackerCategorize ⟨ts, app, wt, cs, ua, cat, conf⟩).1).value,
       (trackerCategorize ⟨ts, app, wt, cs, ua, cat, conf⟩).2) := by
  have hkeys : categoryKeywords =
      [(.work, WORK_KEYWORDS), (.communication, COMMUNICATION_KEYWORDS),
       (.breaks, BREAKS_KEYWORDS)] := rfl
  unfold categorize_activity trackerCategorize
  simp only [hkeys, List.map_cons, List.map_nil]
  set w := List.countP (fun kw => strContains (pyLower (ua ++ " " ++ cs ++ " " ++ wt)) kw)
    WORK_KEYWORDS with hw
  set c := List.countP (fun kw => strContains (pyLower (ua ++ " " ++ cs ++ " " ++ wt)) kw)
    COMMUNICATION_KEYWORDS with hc0
  set b := List.countP (fun kw => strContains (pyLower (ua ++ " " ++ cs ++ " " ++ wt)) kw)
    BREAKS_KEYWORDS with hb0
  by_cases hz : w = 0 ∧ c = 0 ∧ b = 0
  · rcases hz with ⟨h1, h2, h3⟩
    rw [h1, h2, h3]
    norm_num [maxLoop, List.foldl, catDictGet, ActivityCategory.value, keywordListOf,
      WORK_KEYWORDS]
  · rw [if_neg hz]
    set bestT := maxLoop (ActivityCategory.work, w)
      [(.communication, c), (.breaks, b)] with hbt
    have hbest : maxLoop ("work", w) [("communication", c), ("breaks", b)] =
        (ActivityCategory.value bestT.1, bestT.2) := by
      have h := maxLoop_map ActivityCategory.value
        [(ActivityCategory.communication, c), (ActivityCategory.breaks, b)]
        (ActivityCategory.work, w)
      simpa [ActivityCategory.value] using h
    rw [hbest]
    have hmem := maxLoop_mem
      [(ActivityCategory.communication, c), (ActivityCategory.breaks, b)]
      (ActivityCategory.work, w)
    rw [← hbt] at hmem
    have hkl : keywordListOf (ActivityCategory.value bestT.1) =
        (catDictGet categoryKeywords bestT.1).getD [] := by
      rcases hmem with h | h
      · rw [h]; rfl
      · simp only [List.mem_cons, List.not_mem_nil, or_false] at h
        rcases h with h | h <;> (rw [h]; rfl)
    rw [hkl, hkeys]
    split_ifs <;> simp [ActivityCategory.value]

end GCA
